import Mathlib

/-!
Verification of the cpp-linter repository (python frontend of the Rust
cpp-linter engine) against its natural-language specification.

The visible python sources of the repository are
`cpp-linter-py/cpp_linter/entry_point.py` (the argument-forwarding shim)
and `cpp-linter-py/docs/conf.py` (the Sphinx documentation build hook).
Those two files are embedded directly below.  The core orchestration
engine (config resolution, diff mapping, report aggregation, sink
writers, exit codes) is implemented in Rust and is not part of the
visible sources; the definitions for those components are modelled from
the specification text, as marked in their doc comments.
-/

namespace CppLinter

/-- Result of one invocation of the python shim: the argument list it
handed to the Rust engine binding, and the process exit code it raised
via `sys.exit`. -/
structure ShimResult where
  forwardedArgs : List String
  exitCode : Int
deriving DecidableEq

/-- Embeds `cpp_linter/entry_point.py`, function `main`:
`sys.exit(run.main(sys.argv))`.  The Rust engine binding `run.main` is an
external collaborator and is taken as a parameter; the shim passes the
whole `sys.argv` list to it and exits with the value the engine returns. -/
def entry_point.main (runMain : List String → Int) (sysArgv : List String) :
    ShimResult :=
  { forwardedArgs := sysArgv, exitCode := runMain sysArgv }

/-- Embeds `subprocess.CalledProcessError` of python, carrying the exit
status of the failed subprocess. -/
structure CalledProcessError where
  returncode : Int
deriving DecidableEq

/-- Embeds `subprocess.CompletedProcess` of python (only the field the
docs build looks at). -/
structure CompletedProcess where
  returncode : Int
deriving DecidableEq

/-- Embeds the `check` flag semantics of `subprocess.run` in python:
when `check` is true and the subprocess exits with a non-zero status, a
`CalledProcessError` is raised; otherwise the completed process is
returned. -/
def subprocess.run (check : Bool) (returncode : Int) :
    Except CalledProcessError CompletedProcess :=
  if check && !(returncode == 0) then .error ⟨returncode⟩ else .ok ⟨returncode⟩

/-- Embeds `cpp-linter-py/docs/conf.py`, function `setup`: it runs the
external `cargo run --example cli_doc` subprocess with `check=True`.
The exit status of that subprocess is the parameter. -/
def conf.setup (cargoExit : Int) : Except CalledProcessError CompletedProcess :=
  subprocess.run true cargoExit

/-- Modelled from the spec: severity of a normalized diagnostic record
(`info|warning|error`), part of the data model of the core engine, which
is not among the visible sources. -/
inductive Severity where
  | info
  | warning
  | error
deriving DecidableEq

/-- Modelled from the spec: the normalized `Diagnostic` record of the
core engine (not among the visible sources) — source file, 1-based line
and column, severity, originating tool, rule identifier, message. -/
structure Diagnostic where
  file : String
  line : Nat
  col : Nat
  severity : Severity
  tool : String
  rule : String
  message : String
deriving DecidableEq

/-- Sort key of the Report Aggregator: file path, then line, then
column, then tool name, compared lexicographically. -/
def sortKey (d : Diagnostic) : String ×ₗ (Nat ×ₗ (Nat ×ₗ String)) :=
  toLex (d.file, toLex (d.line, toLex (d.col, d.tool)))

/-- Aggregator ordering on diagnostics: primary by file path, secondary
by line, tertiary by column, quaternary by tool name. -/
def diagLE (a b : Diagnostic) : Prop :=
  sortKey a ≤ sortKey b

instance : DecidableRel diagLE := fun a b =>
  inferInstanceAs (Decidable (sortKey a ≤ sortKey b))

instance : IsTotal Diagnostic diagLE :=
  ⟨fun a b => le_total (sortKey a) (sortKey b)⟩

instance : IsTrans Diagnostic diagLE :=
  ⟨fun _ _ _ h₁ h₂ => le_trans h₁ h₂⟩

/-- Deduplication key of the Report Aggregator:
`(file, line, column, tool, rule)`. -/
def dedupKey (d : Diagnostic) : String × Nat × Nat × String × String :=
  (d.file, d.line, d.col, d.tool, d.rule)

/-- Worker of `dedupDiags`: traverses the list keeping the first
diagnostic for each deduplication key, tracking the keys already seen. -/
def dedupDiagsAux (seen : List (String × Nat × Nat × String × String)) :
    List Diagnostic → List Diagnostic
  | [] => []
  | d :: rest =>
      if dedupKey d ∈ seen then dedupDiagsAux seen rest
      else d :: dedupDiagsAux (dedupKey d :: seen) rest

/-- Modelled from the spec: the deduplication pass of the Report
Aggregator in the core engine (not among the visible sources) — removes
exact `(file, line, column, tool, rule)` key collisions, keeping the
first occurrence. -/
def dedupDiags (ds : List Diagnostic) : List Diagnostic :=
  dedupDiagsAux [] ds

/-- Modelled from the spec: the Report Aggregator of the core engine
(not among the visible sources) — merges all diagnostics into one
ordered collection, deduplicating exact key collisions (first occurrence
kept) and sorting stably by file, line, column, tool. -/
def aggregate (ds : List Diagnostic) : List Diagnostic :=
  List.insertionSort diagLE (dedupDiags ds)

/-- Modelled from the spec: the Diff Mapper of the core engine (not
among the visible sources).  When diff-scope filtering is enabled it
keeps exactly the diagnostics whose absolute line number is in the
changed-line set of their file; when disabled it is a pass-through. -/
def diffMapper (enabled : Bool) (changed : String → List Nat)
    (ds : List Diagnostic) : List Diagnostic :=
  if enabled then ds.filter (fun d => decide (d.line ∈ changed d.file)) else ds

/-- Modelled from the spec: the internal all-diagnostics total used for
summary statistics, counted over the unfiltered diagnostic collection
(diagnostics dropped by the Diff Mapper are still counted). -/
def allDiagnosticsCount (ds : List Diagnostic) : Nat :=
  ds.length

/-- Modelled from the spec: the three input channels of the Config
Resolver for one setting — CLI flag, environment variable, project
configuration file — each possibly absent. -/
structure ConfigChannels where
  cli : Option String
  env : Option String
  projectFile : Option String
deriving DecidableEq

/-- Modelled from the spec: value selection of the Config Resolver for
one setting — explicit CLI flag over environment variable over project
file over built-in default. -/
def resolveSetting (builtinDefault : String) (c : ConfigChannels) : String :=
  match c.cli with
  | some v => v
  | none =>
      match c.env with
      | some v => v
      | none =>
          match c.projectFile with
          | some v => v
          | none => builtinDefault

/-- Modelled from the spec: fatal configuration errors — an unknown flag
(named), or conflicting mutually-exclusive flags. -/
inductive ConfigError where
  | unknownFlag (flag : String)
  | conflictingFlags
deriving DecidableEq

/-- Modelled from the spec: the immutable `RunConfig` value produced by
the Config Resolver of the core engine (not among the visible sources);
a representative selection of its fields. -/
structure RunConfig where
  toolPath : String
  styleRules : String
  diffScopeEnabled : Bool
  concurrencyLimit : Nat
deriving DecidableEq

/-- Modelled from the spec: the inputs of one resolution — per-setting
channels, the requested concurrency, the unknown flags found on the
command line, and the diff-scope sources given (more than one source is
a conflict). -/
structure ResolverInputs where
  toolPathChannels : ConfigChannels
  styleRulesChannels : ConfigChannels
  concurrency : Nat
  unknownFlags : List String
  diffScopeSources : List String
deriving DecidableEq

/-- Modelled from the spec: the Config Resolver of the core engine (not
among the visible sources) — validates the inputs (unknown flag,
conflicting diff-scope sources) and otherwise builds the single
immutable `RunConfig` by the precedence rule, with no side effects. -/
def resolveRunConfig (inp : ResolverInputs) : Except ConfigError RunConfig :=
  match inp.unknownFlags with
  | f :: _ => .error (.unknownFlag f)
  | [] =>
      if 1 < inp.diffScopeSources.length then .error .conflictingFlags
      else .ok
        { toolPath := resolveSetting "clang-tidy" inp.toolPathChannels
          styleRules := resolveSetting "llvm" inp.styleRulesChannels
          diffScopeEnabled := !inp.diffScopeSources.isEmpty
          concurrencyLimit := inp.concurrency }

/-- Modelled from the spec: the aggregated `Report` — the final
diagnostic collection plus summary counts. -/
structure Report where
  diags : List Diagnostic
  errorCount : Nat
  warningCount : Nat
  suggestionCount : Nat
deriving DecidableEq

/-- Modelled from the spec: the configured failure-threshold policy,
e.g. fail if any error-severity diagnostic, or fail if the warning count
exceeds a bound. -/
structure FailThresholds where
  failOnError : Bool
  maxWarnings : Option Nat
deriving DecidableEq

/-- Modelled from the spec: pass/fail evaluation — a pure function of
the configured failure thresholds applied to the summary counts of the
Report. -/
def passFail (t : FailThresholds) (r : Report) : Bool :=
  (!(t.failOnError && decide (0 < r.errorCount))) &&
    (match t.maxWarnings with
     | some n => decide (r.warningCount ≤ n)
     | none => true)

/-- Modelled from the spec: the fatal failure classes — those that abort
the run before any Report is produced. -/
inductive FatalClass where
  | configError
  | selectionError
  | toolUnavailable
  | runTimeout
deriving DecidableEq

/-- Modelled from the spec: the failure classes that receive a distinct
non-zero process exit code (threshold failure is determined from a
produced Report; the other four are fatal). -/
inductive FailureClass where
  | configError
  | selectionError
  | toolUnavailable
  | thresholdFailure
  | runTimeout
deriving DecidableEq

/-- Embedding of each fatal class into the exit-code failure classes. -/
def FatalClass.toFailureClass : FatalClass → FailureClass
  | .configError => .configError
  | .selectionError => .selectionError
  | .toolUnavailable => .toolUnavailable
  | .runTimeout => .runTimeout

/-- Modelled from the spec: the distinct non-zero exit code of each
failure class. -/
def failureExitCode : FailureClass → Nat
  | .configError => 1
  | .selectionError => 2
  | .toolUnavailable => 3
  | .thresholdFailure => 4
  | .runTimeout => 5

/-- Modelled from the spec: outcome of one run of the core engine — a
fatal error aborts before a Report exists, otherwise the run completes
with the produced Report. -/
inductive RunResult where
  | fatal (e : FatalClass)
  | completed (r : Report)
deriving DecidableEq

/-- Modelled from the spec: the process exit code of a run — `0` on
pass, the threshold-failure code when the produced Report fails the
thresholds, and the distinct code of the fatal class otherwise. -/
def runExitCode (t : FailThresholds) : RunResult → Nat
  | .fatal e => failureExitCode e.toFailureClass
  | .completed r => if passFail t r then 0 else failureExitCode .thresholdFailure

/-- The Report visible outside a run, if any: a fatal run exposes none. -/
def reportOf : RunResult → Option Report
  | .fatal _ => none
  | .completed r => some r

/-- Modelled from the spec: termination of a run under the global
timeout.  When the timeout fired, the run ends with a `RunTimeout`
fatal failure and the results gathered before cancellation are
discarded; otherwise the gathered diagnostics become the Report. -/
def finishRun (timedOut : Bool) (gathered : List Diagnostic)
    (mkReport : List Diagnostic → Report) : RunResult :=
  if timedOut then .fatal .runTimeout else .completed (mkReport gathered)

/-- Modelled from the spec: the per-writer `SinkError` (non-fatal,
logged). -/
structure SinkError where
  message : String
deriving DecidableEq

/-- Modelled from the spec: a Sink Writer consumes the immutable Report
and either completes or fails with a `SinkError`. -/
abbrev SinkWriter : Type :=
  Report → Except SinkError Unit

/-- Modelled from the spec: dispatching the Report to all configured
Sink Writers — every writer is applied to the same immutable Report,
independently of the outcomes of the others, and the pass/fail status is
computed from the thresholds and the Report alone.  Returns the
per-writer outcomes, the Report after dispatch, and the pass/fail. -/
def dispatchSinks (t : FailThresholds) (ws : List SinkWriter) (r : Report) :
    List (Except SinkError Unit) × Report × Bool :=
  (ws.map (fun w => w r), r, passFail t r)

/-- Sample diagnostic used by concrete witnesses. -/
def sampleDiagA : Diagnostic :=
  ⟨"a.cpp", 3, 1, .warning, "clang-tidy", "ruleOne", "m1"⟩

/-- Second sample diagnostic: same file, line, column and tool as
`sampleDiagA` but a different rule identifier. -/
def sampleDiagB : Diagnostic :=
  ⟨"a.cpp", 3, 1, .warning, "clang-tidy", "ruleTwo", "m2"⟩

/-- Sample passing Report (no diagnostics, all counts zero). -/
def sampleReport : Report :=
  ⟨[], 0, 0, 0⟩

/-- Sample failing Report (one error in the summary counts). -/
def sampleFailingReport : Report :=
  ⟨[], 1, 0, 0⟩

/-- Sample thresholds: fail on any error, no warning bound. -/
def strictThresholds : FailThresholds :=
  ⟨true, none⟩

/-- Sample writer that always completes. -/
def okWriter : SinkWriter :=
  fun _ => .ok ()

/-- Sample writer that always fails, e.g. a network failure while
posting a PR comment. -/
def failingWriter : SinkWriter :=
  fun _ => .error ⟨"network failure"⟩

end CppLinter

namespace CppLinter

theorem mem_of_mem_dedupDiagsAux
    {seen : List (String × Nat × Nat × String × String)}
    {ds : List Diagnostic} {e : Diagnostic}
    (h : e ∈ dedupDiagsAux seen ds) : e ∈ ds := by
  induction ds generalizing seen with
  | nil =>
      rw [dedupDiagsAux] at h
      exact absurd h (List.not_mem_nil e)
  | cons d rest ih =>
      rw [dedupDiagsAux] at h
      split at h
      · exact List.mem_cons_of_mem _ (ih h)
      · rcases List.mem_cons.mp h with h | h
        · exact h ▸ List.mem_cons_self _ _
        · exact List.mem_cons_of_mem _ (ih h)

theorem dedupDiagsAux_filter_key (k : String × Nat × Nat × String × String)
    (ds : List Diagnostic) (seen : List (String × Nat × Nat × String × String)) :
    (dedupDiagsAux seen ds).filter (fun d => decide (dedupKey d = k))
      = if k ∈ seen then []
        else (ds.filter (fun d => decide (dedupKey d = k))).take 1 := by
  induction ds generalizing seen with
  | nil => simp [dedupDiagsAux]
  | cons d rest ih =>
      rw [dedupDiagsAux]
      by_cases hd : dedupKey d ∈ seen
      · rw [if_pos hd, ih]
        by_cases hk : k ∈ seen
        · simp [hk]
        · have hne : ¬ dedupKey d = k := fun h => hk (h ▸ hd)
          simp [hk, List.filter_cons, hne]
      · rw [if_neg hd]
        by_cases hdk : dedupKey d = k
        · subst hdk
          have h1 : dedupKey d ∈ dedupKey d :: seen := List.mem_cons_self _ _
          simp only [List.filter_cons, decide_eq_true_eq, if_pos rfl, ih, if_pos h1,
            if_neg hd]
          simp
        · have hmem : (k ∈ dedupKey d :: seen) ↔ k ∈ seen := by
            constructor
            · intro h
              rcases List.mem_cons.mp h with h | h
              · exact absurd h.symm hdk
              · exact h
            · exact fun h => List.mem_cons_of_mem _ h
          simp only [List.filter_cons, decide_eq_true_eq, if_neg hdk, ih, hmem]

theorem dedupDiagsAux_keys (ds : List Diagnostic)
    (seen : List (String × Nat × Nat × String × String)) :
    ((dedupDiagsAux seen ds).map dedupKey).Nodup ∧
      ∀ x ∈ dedupDiagsAux seen ds, dedupKey x ∉ seen := by
  induction ds generalizing seen with
  | nil => simp [dedupDiagsAux]
  | cons d rest ih =>
      rw [dedupDiagsAux]
      by_cases hd : dedupKey d ∈ seen
      · simpa [hd] using ih seen
      · rw [if_neg hd]
        obtain ⟨hnd, hfresh⟩ := ih (dedupKey d :: seen)
        refine ⟨?_, ?_⟩
        · refine List.Nodup.cons ?_ hnd
          intro hmem
          rcases List.mem_map.mp hmem with ⟨x, hx, hkx⟩
          exact hfresh x hx (hkx ▸ List.mem_cons_self _ _)
        · intro x hx
          rcases List.mem_cons.mp hx with h | h
          · exact h ▸ hd
          · exact fun hc => hfresh x h (List.mem_cons_of_mem _ hc)

theorem dedupDiagsAux_covers {ds : List Diagnostic} {x : Diagnostic} (hx : x ∈ ds)
    (seen : List (String × Nat × Nat × String × String)) :
    dedupKey x ∈ seen ∨ ∃ e ∈ dedupDiagsAux seen ds, dedupKey e = dedupKey x := by
  induction ds generalizing seen with
  | nil => cases hx
  | cons d rest ih =>
      rw [dedupDiagsAux]
      by_cases hd : dedupKey d ∈ seen
      · rw [if_pos hd]
        rcases List.mem_cons.mp hx with h | h
        · exact Or.inl (h ▸ hd)
        · exact ih h seen
      · rw [if_neg hd]
        rcases List.mem_cons.mp hx with h | h
        · exact Or.inr ⟨d, List.mem_cons_self _ _, by rw [h]⟩
        · rcases ih h (dedupKey d :: seen) with hs | ⟨e, he, hke⟩
          · rcases List.mem_cons.mp hs with h1 | h1
            · exact Or.inr ⟨d, List.mem_cons_self _ _, h1.symm⟩
            · exact Or.inl h1
          · exact Or.inr ⟨e, List.mem_cons_of_mem _ he, hke⟩

theorem diagLE_def (a b : Diagnostic) : diagLE a b ↔ sortKey a ≤ sortKey b :=
  Iff.rfl

theorem diagLE_of_sortKey_eq {a b : Diagnostic} (h : sortKey a = sortKey b) :
    diagLE a b :=
  (diagLE_def a b).mpr (le_of_eq h)

theorem filter_orderedInsert (k : String ×ₗ (Nat ×ₗ (Nat ×ₗ String)))
    (a : Diagnostic) (l : List Diagnostic) :
    (List.orderedInsert diagLE a l).filter (fun d => decide (sortKey d = k))
      = (a :: l).filter (fun d => decide (sortKey d = k)) := by
  induction l with
  | nil => simp [List.orderedInsert]
  | cons y ys ih =>
      rw [List.orderedInsert]
      by_cases hr : diagLE a y
      · rw [if_pos hr]
      · rw [if_neg hr]
        have hkey : sortKey a ≠ sortKey y := fun he => hr (diagLE_of_sortKey_eq he)
        by_cases hpa : sortKey a = k
        · have hpy : ¬ sortKey y = k := fun hy => hkey (hpa.trans hy.symm)
          simp [List.filter_cons, hpa, hpy, ih]
        · simp [List.filter_cons, hpa, ih]

theorem filter_insertionSort (k : String ×ₗ (Nat ×ₗ (Nat ×ₗ String)))
    (l : List Diagnostic) :
    (List.insertionSort diagLE l).filter (fun d => decide (sortKey d = k))
      = l.filter (fun d => decide (sortKey d = k)) := by
  induction l with
  | nil => rfl
  | cons a l ih =>
      rw [List.insertionSort, filter_orderedInsert k a (List.insertionSort diagLE l)]
      simp [List.filter_cons, ih]

/-- C1: for every engine `runMain` and every process argument list
`argv`, the python entry point `main()` passes exactly `argv` to the
engine (no elements added, removed or altered) and terminates the
process with exactly the exit code returned by the engine. -/
theorem entry_point_forwards_unmodified_C1
    (runMain : List String → Int) (argv : List String) :
    (entry_point.main runMain argv).forwardedArgs = argv ∧
      (entry_point.main runMain argv).exitCode = runMain argv :=
  ⟨rfl, rfl⟩

/-- C2: the list the shim forwards to `run.main` is the full `sys.argv`
including its first element, the program name: for `sys.argv = prog :: rest`
the forwarded list is `prog :: rest` itself and its first element is
`prog`, so the CLI parser of the engine receives the program name as the
first list element. -/
theorem entry_point_keeps_argv0_C2
    (runMain : List String → Int) (prog : String) (rest : List String) :
    (entry_point.main runMain (prog :: rest)).forwardedArgs = prog :: rest ∧
      (entry_point.main runMain (prog :: rest)).forwardedArgs.head? = some prog :=
  ⟨rfl, rfl⟩

/-- C3: the Report Aggregator output is sorted by the total order
(file, then line, then column, then tool), deterministically and stably
(filtering by any sort key preserves the deduplicated input order), and
deduplication removes all and only exact (file, line, column, tool, rule)
key collisions keeping the first occurrence; in particular every
diagnostic key of the input — including two diagnostics at the same
file/line/column/tool with different rules — is represented in the final
collection. -/
theorem report_aggregator_C3 (ds : List Diagnostic) :
    (aggregate ds).Sorted diagLE
  ∧ (∀ k, (aggregate ds).filter (fun d => decide (sortKey d = k))
        = (dedupDiags ds).filter (fun d => decide (sortKey d = k)))
  ∧ (∀ k, (dedupDiags ds).filter (fun d => decide (dedupKey d = k))
        = (ds.filter (fun d => decide (dedupKey d = k))).take 1)
  ∧ ((aggregate ds).map dedupKey).Nodup
  ∧ (∀ e, e ∈ aggregate ds → e ∈ ds)
  ∧ (∀ d, d ∈ ds → ∃ e, e ∈ aggregate ds ∧ dedupKey e = dedupKey d) := by
  have hperm : List.Perm (List.insertionSort diagLE (dedupDiags ds)) (dedupDiags ds) :=
    List.perm_insertionSort diagLE (dedupDiags ds)
  refine ⟨List.sorted_insertionSort diagLE (dedupDiags ds),
    fun k => filter_insertionSort k (dedupDiags ds),
    fun k => ?_, ?_, fun e he => ?_, fun d hd => ?_⟩
  · have h := dedupDiagsAux_filter_key k ds []
    simpa [dedupDiags] using h
  · exact ((hperm.map dedupKey).nodup_iff).mpr (dedupDiagsAux_keys ds []).1
  · exact mem_of_mem_dedupDiagsAux (hperm.mem_iff.mp he)
  · rcases dedupDiagsAux_covers hd [] with h | ⟨e, he, hke⟩
    · cases h
    · exact ⟨e, hperm.mem_iff.mpr he, hke⟩

/-- Witness for C3: for two concrete diagnostics at the same
file/line/column/tool with different rule identifiers, the second is in
the input and its key is represented in the aggregated collection. -/
theorem report_aggregator_C3_witness :
    sampleDiagB ∈ [sampleDiagA, sampleDiagB] ∧
      ∃ e, e ∈ aggregate [sampleDiagA, sampleDiagB] ∧
        dedupKey e = dedupKey sampleDiagB :=
  ⟨by decide,
    (report_aggregator_C3 [sampleDiagA, sampleDiagB]).2.2.2.2.2 sampleDiagB
      (by decide)⟩

/-- C4: with diff-scope filtering enabled, a diagnostic at line L of
file F is in the scoped output iff L is in the changed-line set of F
(absolute line numbers), and the internal all-diagnostics total still
counts the dropped diagnostics: it equals the scoped length plus the
number of diagnostics on unchanged lines. -/
theorem diff_mapper_scope_C4 (changed : String → List Nat)
    (ds : List Diagnostic) (d : Diagnostic) :
    (d ∈ diffMapper true changed ds ↔ d ∈ ds ∧ d.line ∈ changed d.file)
  ∧ allDiagnosticsCount ds
      = (diffMapper true changed ds).length
        + (ds.filter (fun x => !decide (x.line ∈ changed x.file))).length := by
  constructor
  · simp [diffMapper, List.mem_filter]
  · simpa [diffMapper, allDiagnosticsCount] using
      List.length_eq_length_filter_add
        (l := ds) (fun x => decide (x.line ∈ changed x.file))

/-- C5: for one setting supplied through several channels, the Config
Resolver selects the value by precedence: explicit CLI flag over
environment variable over project file over built-in default. -/
theorem config_precedence_C5 (dflt : String) (c : ConfigChannels) :
    (∀ v, c.cli = some v → resolveSetting dflt c = v)
  ∧ (∀ v, c.cli = none → c.env = some v → resolveSetting dflt c = v)
  ∧ (∀ v, c.cli = none → c.env = none → c.projectFile = some v →
        resolveSetting dflt c = v)
  ∧ (c.cli = none → c.env = none → c.projectFile = none →
        resolveSetting dflt c = dflt) := by
  refine ⟨fun v h => ?_, fun v h1 h2 => ?_, fun v h1 h2 h3 => ?_,
    fun h1 h2 h3 => ?_⟩
  · simp [resolveSetting, h]
  · simp [resolveSetting, h1, h2]
  · simp [resolveSetting, h1, h2, h3]
  · simp [resolveSetting, h1, h2, h3]

/-- Witness for C5: on concrete channels the CLI value wins over all
others, and with no CLI value the environment value wins over the
project file. -/
theorem config_precedence_C5_witness :
    resolveSetting "d" ⟨some "fromCli", some "fromEnv", some "fromFile"⟩ = "fromCli"
  ∧ resolveSetting "d" ⟨none, some "fromEnv", some "fromFile"⟩ = "fromEnv" :=
  ⟨(config_precedence_C5 "d" ⟨some "fromCli", some "fromEnv", some "fromFile"⟩).1
      "fromCli" rfl,
    (config_precedence_C5 "d" ⟨none, some "fromEnv", some "fromFile"⟩).2.1
      "fromEnv" rfl rfl⟩

/-- C6: RunConfig resolution is deterministic: two resolutions from
identical inputs yield identical configurations. -/
theorem config_resolution_deterministic_C6 (inp : ResolverInputs)
    (r₁ r₂ : RunConfig)
    (h₁ : resolveRunConfig inp = .ok r₁) (h₂ : resolveRunConfig inp = .ok r₂) :
    r₁ = r₂ := by
  rw [h₁] at h₂
  exact Except.ok.inj h₂

/-- Witness for C6: two resolutions of a concrete input agree on the
concrete resolved configuration. -/
theorem config_resolution_deterministic_C6_witness :
    ({ toolPath := "custom-tidy", styleRules := "llvm",
       diffScopeEnabled := false, concurrencyLimit := 4 } : RunConfig)
      = { toolPath := "custom-tidy", styleRules := "llvm",
          diffScopeEnabled := false, concurrencyLimit := 4 } :=
  config_resolution_deterministic_C6
    ⟨⟨some "custom-tidy", none, none⟩, ⟨none, none, none⟩, 4, [], []⟩ _ _ rfl rfl

/-- Counterexample for C7 as stated: a threshold failure is not an
abort-before-Report.  A completed run whose Report fails the thresholds
exits with the non-zero threshold-failure code, yet a Report was
produced, so not every non-zero-coded failure aborts before a Report. -/
theorem exit_codes_C7_counterexample :
    runExitCode strictThresholds (.completed sampleFailingReport) ≠ 0 ∧
      reportOf (.completed sampleFailingReport) = some sampleFailingReport := by
  constructor
  · decide
  · rfl

/-- C7 (amended): the exit code is 0 iff the run completed and its
Report passes the thresholds; every failure class has its own distinct
non-zero exit code; and the fatal classes (config error, selection
error, tool unavailable, run timeout) abort before any Report is
produced, while a threshold failure is computed from the produced
Report. -/
theorem exit_codes_C7_amended (t : FailThresholds) :
    (∀ res, runExitCode t res = 0 ↔
        ∃ r, res = .completed r ∧ passFail t r = true)
  ∧ (∀ c₁ c₂ : FailureClass, failureExitCode c₁ = failureExitCode c₂ → c₁ = c₂)
  ∧ (∀ c : FailureClass, failureExitCode c ≠ 0)
  ∧ (∀ e : FatalClass, reportOf (RunResult.fatal e) = none)
  ∧ (∀ r, runExitCode t (RunResult.completed r) = 0 ∨
        runExitCode t (RunResult.completed r) = failureExitCode .thresholdFailure) := by
  refine ⟨fun res => ?_, fun c₁ c₂ => by cases c₁ <;> cases c₂ <;> decide,
    fun c => by cases c <;> decide, fun e => rfl, fun r => ?_⟩
  · cases res with
    | fatal e =>
        constructor
        · intro h
          exact absurd h
            (by cases e <;>
              simp [runExitCode, FatalClass.toFailureClass, failureExitCode])
        · rintro ⟨r, hr, -⟩
          cases hr
    | completed r =>
        constructor
        · intro h
          refine ⟨r, rfl, ?_⟩
          by_contra hpf
          rw [runExitCode, if_neg hpf] at h
          exact absurd h (by decide)
        · rintro ⟨r', hr, hpf⟩
          cases hr
          rw [runExitCode, if_pos hpf]
  · by_cases hpf : passFail t r = true
    · exact Or.inl (by rw [runExitCode, if_pos hpf])
    · exact Or.inr (by rw [runExitCode, if_neg hpf])

/-- Witness for C7 (amended): a concrete completed run that passes the
strict thresholds exits with code 0. -/
theorem exit_codes_C7_amended_witness :
    runExitCode strictThresholds (.completed sampleReport) = 0 :=
  ((exit_codes_C7_amended strictThresholds).1
      (.completed sampleReport)).mpr ⟨sampleReport, rfl, by decide⟩

/-- C8: when the global timeout fired, the run terminates as the
`RunTimeout` fatal failure with its distinct exit code, no Report is
visible, and the result is independent of whatever results were
gathered before cancellation (they are discarded atomically). -/
theorem run_timeout_atomic_C8 (t : FailThresholds)
    (gathered : List Diagnostic) (mkReport : List Diagnostic → Report) :
    finishRun true gathered mkReport = .fatal .runTimeout
  ∧ reportOf (finishRun true gathered mkReport) = none
  ∧ runExitCode t (finishRun true gathered mkReport)
      = failureExitCode .runTimeout
  ∧ ∀ gathered₂ mkReport₂,
      finishRun true gathered mkReport = finishRun true gathered₂ mkReport₂ := by
  refine ⟨rfl, rfl, rfl, fun gathered₂ mkReport₂ => rfl⟩

/-- C9: a failure in one Sink Writer does not prevent the other writers
from completing (each outcome in the dispatch is that writer applied to
the Report, whatever the failing writer returned), the Report is
unchanged by dispatch, and the pass/fail status equals the pure
threshold evaluation of the Report. -/
theorem sink_writers_independent_C9 (t : FailThresholds) (r : Report)
    (ws₁ ws₂ : List SinkWriter) (w : SinkWriter) (e : SinkError)
    (hw : w r = .error e) :
    (dispatchSinks t (ws₁ ++ w :: ws₂) r).1
      = ws₁.map (fun x => x r) ++ Except.error e :: ws₂.map (fun x => x r)
  ∧ (dispatchSinks t (ws₁ ++ w :: ws₂) r).2.1 = r
  ∧ (dispatchSinks t (ws₁ ++ w :: ws₂) r).2.2 = passFail t r := by
  refine ⟨?_, rfl, rfl⟩
  simp [dispatchSinks, hw]

/-- Witness for C9: with a concrete failing writer between two
succeeding writers, both neighbours complete, the Report is unchanged
and pass/fail equals the threshold evaluation. -/
theorem sink_writers_independent_C9_witness :
    (dispatchSinks strictThresholds
        ([okWriter] ++ failingWriter :: [okWriter]) sampleReport).1
      = [okWriter].map (fun x => x sampleReport)
          ++ Except.error ⟨"network failure"⟩
            :: [okWriter].map (fun x => x sampleReport)
  ∧ (dispatchSinks strictThresholds
        ([okWriter] ++ failingWriter :: [okWriter]) sampleReport).2.1
      = sampleReport
  ∧ (dispatchSinks strictThresholds
        ([okWriter] ++ failingWriter :: [okWriter]) sampleReport).2.2
      = passFail strictThresholds sampleReport :=
  sink_writers_independent_C9 strictThresholds sampleReport
    [okWriter] [okWriter] failingWriter ⟨"network failure"⟩ rfl

/-- C10: the `setup()` of the documentation build runs the `cargo`
subprocess with `check=True`, so a non-zero subprocess exit status makes
`setup()` raise `CalledProcessError` (the docs build fails), while a
zero status completes normally. -/
theorem docs_setup_checks_subprocess_C10 (rc : Int) :
    (rc ≠ 0 → conf.setup rc = .error ⟨rc⟩) ∧
      (rc = 0 → conf.setup rc = .ok ⟨rc⟩) := by
  constructor
  · intro h
    simp [conf.setup, subprocess.run, h]
  · intro h
    simp [conf.setup, subprocess.run, h]

/-- Witness for C10: at the concrete failing status 1 the docs build
raises, and at status 0 it completes. -/
theorem docs_setup_checks_subprocess_C10_witness :
    conf.setup 1 = .error ⟨1⟩ ∧ conf.setup 0 = .ok ⟨0⟩ :=
  ⟨(docs_setup_checks_subprocess_C10 1).1 (by decide),
    (docs_setup_checks_subprocess_C10 0).2 rfl⟩

end CppLinter
